import Mathlib

/-!
Verification of the Hospital Mortality Risk Predictor dashboard
(src/mortality_dashboard_v2.py).

The program builds a single-row feature table from three user inputs
(`preprocess`, lines 72-87) and invokes a pre-trained pipeline's
`predict_proba` inside a try/except boundary (`make_prediction`,
lines 98-104).  We embed the Python dict used by `preprocess` as an
ordered association list with Python's dict-assignment semantics
(update in place if the key exists, append otherwise), and the external
pipeline as a structure whose fallible operations return `Except`.
-/

namespace Mortality

/-- Values stored in the feature row: Python numbers (the `0` defaults and
the age field), strings (gender, rural, admission type), or Python `None`
(what Dash delivers when the numeric input is cleared). -/
inductive Value where
  | num : Int → Value
  | str : String → Value
  | none : Value
deriving DecidableEq, Repr

/-- A Python dict keyed by column name, in insertion order. -/
abbrev Row := List (String × Value)

/-- Keys of the dict, in order. -/
def dictKeys (d : Row) : List String := d.map Prod.fst

/-- Python `k in d` for a dict. -/
def dictMem : Row → String → Bool
  | [], _ => false
  | p :: d, k => p.1 == k || dictMem d k

/-- Python `d[k]` lookup (first matching key). -/
def dictGet : Row → String → Option Value
  | [], _ => Option.none
  | p :: d, k => if p.1 == k then some p.2 else dictGet d k

/-- Python `d[k] = v`: update the existing entry in place, else append. -/
def dictSet : Row → String → Value → Row
  | [], k, v => [(k, v)]
  | p :: d, k, v => if p.1 == k then (k, v) :: d else p :: dictSet d k v

/-- The guarded assignment pattern of lines 78-86:
`if k in base: base[k] = v`. -/
def setIfMem (d : Row) (k : String) (v : Value) : Row :=
  if dictMem d k then dictSet d k v else d

/-- Line 76: `base = \x7bcol: 0 for col in expected_cols\x7d`. -/
def buildBase (expected_cols : List String) : Row :=
  expected_cols.foldl (fun d c => dictSet d c (Value.num 0)) []

/-- The hard-coded admission-type column name (lines 82-83). -/
def admissionCol : String := "TYPE_OF_ADMISSION-EMERGENCY/OPD"

/-- The dict built by `preprocess` (lines 72-87): initialise every expected
column to `0`, then conditionally overwrite `GENDER`, `RURAL`, the
admission-type column (with the constant `"EMERGENCY"`), and `AGE`,
in that order. -/
def preprocessRow (expected_cols : List String) (age gender rural : Value) : Row :=
  setIfMem
    (setIfMem
      (setIfMem
        (setIfMem (buildBase expected_cols) "GENDER" gender)
        "RURAL" rural)
      admissionCol (Value.str "EMERGENCY"))
    "AGE" age

/-- The UI bound on the age widget (line 34): `min=0`. It is a constraint
on the input component only; `preprocess` never checks it. -/
def ageInputMin : Int := 0

/-- The UI bound on the age widget (line 34): `max=120`. -/
def ageInputMax : Int := 120

/-- The default age shown by the widget (line 34): `value=60`. -/
def ageInputDefault : Int := 60

/-- The external trained pipeline (loaded at line 9).  Accessing
`named_steps["pre"].feature_names_in_` (line 74) and calling
`predict_proba` (line 101) may each raise, which we model with `Except`
carrying the exception message. -/
structure Pipeline where
  feature_names_in : Except String (List String)
  predict_proba : Row → Except String (List (List ℚ))

/-- Body of `preprocess` including the fallible attribute access of
line 74: obtain the expected columns from the pipeline, then build the
row. -/
def preprocessE (pipe : Pipeline) (age gender rural : Value) : Except String Row :=
  match pipe.feature_names_in with
  | Except.error e => Except.error e
  | Except.ok cols => Except.ok (preprocessRow cols age gender rural)

/-- The indexing `[0, 1]` of line 101 applied to the matrix returned by
`predict_proba`: row 0, column 1; out-of-bounds indexing raises. -/
def selectProba (rows : List (List ℚ)) : Except String ℚ :=
  match rows with
  | [] => Except.error "index 0 is out of bounds for axis 0"
  | r :: _ =>
    match r.get? 1 with
    | Option.none => Except.error "index 1 is out of bounds for axis 1"
    | some p => Except.ok p

/-- Round to the nearest integer, ties to even — the rounding used by
Python format specifiers. -/
def roundHalfEven (q : ℚ) : Int :=
  let f : Int := ⌊q⌋
  if q - f < 1/2 then f
  else if q - f > 1/2 then f + 1
  else if f % 2 = 0 then f else f + 1

/-- Render an integer count of hundredths of a percent as `XX.XX%`
(the Python format `:.2%` of line 102, for non-negative values). -/
def renderPercent (scaled : Int) : String :=
  let whole := scaled / 100
  let frac := scaled % 100
  toString whole ++ "." ++ (if frac < 10 then "0" ++ toString frac else toString frac) ++ "%"

/-- Python `f"\x7bp:.2%\x7d"`: the probability as a percentage with two
decimal places. -/
def formatPercent (p : ℚ) : String :=
  renderPercent (roundHalfEven (p * 100 * 100))

/-- Last part of the try body of lines 100-102: index the probability
matrix and render the line-102 success string, or fall to the except
branch of line 104. -/
def probaStep (rows : List (List ℚ)) : String :=
  match selectProba rows with
  | Except.error e => "⚠️ Error: " ++ e
  | Except.ok p => "Predicted mortality risk: " ++ formatPercent p

/-- The `predict_proba` call of line 101 under the try of line 99: an
exception becomes the warning string of line 104. -/
def predictStep (pipe : Pipeline) (df : Row) : String :=
  match pipe.predict_proba df with
  | Except.error e => "⚠️ Error: " ++ e
  | Except.ok rows => probaStep rows

/-- The callback `make_prediction` (lines 98-104): try preprocessing and
inference, render the probability on success, and turn any exception into
the warning string of line 104. -/
def make_prediction (pipe : Pipeline) (age gender rural : Value) : String :=
  match preprocessE pipe age gender rural with
  | Except.error e => "⚠️ Error: " ++ e
  | Except.ok df => predictStep pipe df

/-- A prediction request: the three fields read by the callback. -/
structure Request where
  age : Value
  gender : Value
  rural : Value

/-- The process-wide state visible to the callback: only the pipeline
loaded once at line 9.  Neither `preprocess` nor `make_prediction`
assigns to any global, so an invocation returns the state unchanged. -/
structure ServerState where
  model : Pipeline

/-- One click of the Predict button: run the callback, thread the state. -/
def handleRequest (s : ServerState) (r : Request) : String × ServerState :=
  (make_prediction s.model r.age r.gender r.rural, s)

/-- A sequence of clicks, returning all outputs and the final state. -/
def runAll (s : ServerState) : List Request → List String × ServerState
  | [] => ([], s)
  | r :: rest =>
    let out := handleRequest s r
    let rec_ := runAll out.2 rest
    (out.1 :: rec_.1, rec_.2)

/-! ### Dictionary lemmas -/

lemma dictKeys_cons (p : String × Value) (d : Row) :
    dictKeys (p :: d) = p.1 :: dictKeys d := rfl

lemma dictMem_iff (d : Row) (k : String) : dictMem d k = true ↔ k ∈ dictKeys d := by
  induction d with
  | nil => simp [dictMem, dictKeys]
  | cons p d ih =>
    rw [dictKeys_cons, List.mem_cons]
    simp only [dictMem, Bool.or_eq_true, beq_iff_eq, ih]
    constructor
    · rintro (h | h)
      · exact Or.inl h.symm
      · exact Or.inr h
    · rintro (h | h)
      · exact Or.inl h.symm
      · exact Or.inr h

lemma dictKeys_dictSet_mem (d : Row) (k : String) (v : Value) (c : String) :
    c ∈ dictKeys (dictSet d k v) ↔ c = k ∨ c ∈ dictKeys d := by
  induction d with
  | nil => simp [dictSet, dictKeys]
  | cons p d ih =>
    by_cases hp : p.1 = k
    · simp [dictSet, hp, dictKeys]
    · simp only [dictSet, beq_iff_eq, hp, if_false, dictKeys, List.map_cons, List.mem_cons]
      rw [show (dictSet d k v).map Prod.fst = dictKeys (dictSet d k v) from rfl, ih]
      tauto

lemma dictKeys_dictSet_of_mem (d : Row) (k : String) (v : Value)
    (h : dictMem d k = true) : dictKeys (dictSet d k v) = dictKeys d := by
  induction d with
  | nil => simp [dictMem] at h
  | cons p d ih =>
    by_cases hp : p.1 = k
    · simp [dictSet, hp, dictKeys]
    · have h2 : dictMem d k = true := by simpa [dictMem, hp] using h
      have h3 := ih h2
      simp [dictSet, hp, dictKeys_cons, h3]

lemma dictGet_dictSet_self (d : Row) (k : String) (v : Value) :
    dictGet (dictSet d k v) k = some v := by
  induction d with
  | nil => simp [dictSet, dictGet]
  | cons p d ih =>
    by_cases hp : p.1 = k
    · simp [dictSet, hp, dictGet]
    · simp [dictSet, hp, dictGet, ih]

lemma dictGet_dictSet_ne (d : Row) (k k' : String) (v : Value) (h : k' ≠ k) :
    dictGet (dictSet d k v) k' = dictGet d k' := by
  have h2 : k ≠ k' := Ne.symm h
  induction d with
  | nil => simp [dictSet, dictGet, h2]
  | cons p d ih =>
    by_cases hp : p.1 = k
    · have h3 : p.1 ≠ k' := by rw [hp]; exact h2
      simp [dictSet, hp, dictGet, h2, h3]
    · by_cases hq : p.1 = k'
      · simp [dictSet, hp, dictGet, hq, h]
      · simp [dictSet, hp, dictGet, hq, ih]

lemma dictGet_mem_of_eq_some (d : Row) (k : String) (v : Value)
    (h : dictGet d k = some v) : (k, v) ∈ d := by
  induction d with
  | nil => simp [dictGet] at h
  | cons p d ih =>
    obtain ⟨a, b⟩ := p
    by_cases hp : a = k
    · subst hp
      simp [dictGet] at h
      subst h
      exact List.mem_cons_self _ _
    · simp [dictGet, hp] at h
      exact List.mem_cons_of_mem _ (ih h)

lemma dictGet_isSome_of_mem (d : Row) (k : String) (h : k ∈ dictKeys d) :
    ∃ v, dictGet d k = some v := by
  induction d with
  | nil => simp [dictKeys] at h
  | cons p d ih =>
    by_cases hp : p.1 = k
    · exact ⟨p.2, by simp [dictGet, hp]⟩
    · have h2 : k ∈ dictKeys d := by
        rw [dictKeys_cons, List.mem_cons] at h
        exact h.resolve_left (fun hh => hp hh.symm)
      obtain ⟨v, hv⟩ := ih h2
      exact ⟨v, by simp [dictGet, hp, hv]⟩

/-! ### `setIfMem` lemmas -/

lemma dictKeys_setIfMem (d : Row) (k : String) (v : Value) :
    dictKeys (setIfMem d k v) = dictKeys d := by
  unfold setIfMem
  by_cases h : dictMem d k
  · rw [if_pos h, dictKeys_dictSet_of_mem d k v h]
  · rw [if_neg h]

lemma setIfMem_get_self (d : Row) (k : String) (v : Value) (h : k ∈ dictKeys d) :
    dictGet (setIfMem d k v) k = some v := by
  unfold setIfMem
  rw [if_pos ((dictMem_iff d k).2 h)]
  exact dictGet_dictSet_self d k v

lemma setIfMem_get_ne (d : Row) (k k' : String) (v : Value) (h : k' ≠ k) :
    dictGet (setIfMem d k v) k' = dictGet d k' := by
  unfold setIfMem
  by_cases hm : dictMem d k
  · rw [if_pos hm]; exact dictGet_dictSet_ne d k k' v h
  · rw [if_neg hm]

/-! ### `buildBase` lemmas -/

lemma buildBase_go_mem (cols : List String) :
    ∀ (acc : Row) (c : String),
      c ∈ dictKeys (cols.foldl (fun d col => dictSet d col (Value.num 0)) acc) ↔
        c ∈ dictKeys acc ∨ c ∈ cols := by
  induction cols with
  | nil => intro acc c; simp
  | cons col cols ih =>
    intro acc c
    rw [List.foldl_cons, ih (dictSet acc col (Value.num 0)) c, dictKeys_dictSet_mem]
    simp only [List.mem_cons]
    tauto

lemma buildBase_mem (cols : List String) (c : String) :
    c ∈ dictKeys (buildBase cols) ↔ c ∈ cols := by
  unfold buildBase
  rw [buildBase_go_mem cols [] c]
  simp [dictKeys]

lemma dictSet_values (d : Row) (k : String) (v0 : Value)
    (h : ∀ p ∈ d, p.2 = v0) : ∀ p ∈ dictSet d k v0, p.2 = v0 := by
  induction d with
  | nil => intro p hp; simp [dictSet] at hp; rw [hp]
  | cons q d ih =>
    intro p hp
    by_cases hq : q.1 = k
    · simp only [dictSet, beq_iff_eq, hq, if_true, List.mem_cons] at hp
      rcases hp with hp | hp
      · rw [hp]
      · exact h p (List.mem_cons_of_mem _ hp)
    · simp only [dictSet, beq_iff_eq, hq, if_false, List.mem_cons] at hp
      rcases hp with hp | hp
      · exact h p (hp ▸ List.mem_cons_self q d)
      · exact ih (fun r hr => h r (List.mem_cons_of_mem _ hr)) p hp

lemma buildBase_go_values (cols : List String) :
    ∀ (acc : Row), (∀ p ∈ acc, p.2 = Value.num 0) →
      ∀ p ∈ cols.foldl (fun d col => dictSet d col (Value.num 0)) acc,
        p.2 = Value.num 0 := by
  induction cols with
  | nil => intro acc h; simpa using h
  | cons col cols ih =>
    intro acc h
    rw [List.foldl_cons]
    exact ih _ (dictSet_values acc col (Value.num 0) h)

lemma buildBase_get (cols : List String) (c : String) (h : c ∈ cols) :
    dictGet (buildBase cols) c = some (Value.num 0) := by
  obtain ⟨v, hv⟩ := dictGet_isSome_of_mem (buildBase cols) c
    ((buildBase_mem cols c).2 h)
  have hmem := dictGet_mem_of_eq_some _ _ _ hv
  have hz := buildBase_go_values cols [] (by simp) (c, v) hmem
  rw [hv]
  simpa using hz

lemma dictSet_append_of_not_mem (d : Row) (k : String) (v : Value)
    (h : k ∉ dictKeys d) : dictSet d k v = d ++ [(k, v)] := by
  induction d with
  | nil => simp [dictSet]
  | cons p d ih =>
    have hp : p.1 ≠ k := fun hh => h (by simp [dictKeys, hh])
    have h2 : k ∉ dictKeys d := fun hh => h (by simp [dictKeys]; tauto)
    simp [dictSet, hp, ih h2]

lemma buildBase_go_order (cols : List String) :
    ∀ (acc : Row), cols.Nodup → (∀ c ∈ cols, c ∉ dictKeys acc) →
      cols.foldl (fun d col => dictSet d col (Value.num 0)) acc =
        acc ++ cols.map (fun c => (c, Value.num 0)) := by
  induction cols with
  | nil => intro acc _ _; simp
  | cons col cols ih =>
    intro acc hnd hdis
    rw [List.foldl_cons,
      dictSet_append_of_not_mem acc col (Value.num 0)
        (hdis col (List.mem_cons_self col cols)),
      ih _ (List.Nodup.of_cons hnd) ?_]
    · simp
    · intro c hc
      have hkeys : dictKeys (acc ++ [(col, Value.num 0)]) = dictKeys acc ++ [col] := by
        simp [dictKeys]
      rw [hkeys]
      intro hmem
      rcases List.mem_append.1 hmem with hmem | hmem
      · exact hdis c (List.mem_cons_of_mem _ hc) hmem
      · have : c = col := by simpa using hmem
        rw [List.nodup_cons] at hnd
        exact hnd.1 (this ▸ hc)

lemma buildBase_keys_of_nodup (cols : List String) (h : cols.Nodup) :
    dictKeys (buildBase cols) = cols := by
  unfold buildBase
  rw [buildBase_go_order cols [] h (by simp [dictKeys])]
  simp only [List.nil_append]
  show List.map Prod.fst (List.map (fun c => (c, Value.num 0)) cols) = cols
  rw [List.map_map]
  exact List.map_id cols

/-! ### `preprocess` lemmas -/

lemma preprocessRow_keys_mem (cols : List String) (a g r : Value) (c : String) :
    c ∈ dictKeys (preprocessRow cols a g r) ↔ c ∈ cols := by
  unfold preprocessRow
  rw [dictKeys_setIfMem, dictKeys_setIfMem, dictKeys_setIfMem, dictKeys_setIfMem]
  exact buildBase_mem cols c

lemma preprocessRow_get_age (cols : List String) (a g r : Value) (h : "AGE" ∈ cols) :
    dictGet (preprocessRow cols a g r) "AGE" = some a := by
  unfold preprocessRow
  apply setIfMem_get_self
  rw [dictKeys_setIfMem, dictKeys_setIfMem, dictKeys_setIfMem]
  exact (buildBase_mem cols "AGE").2 h

lemma preprocessRow_get_admission (cols : List String) (a g r : Value)
    (h : admissionCol ∈ cols) :
    dictGet (preprocessRow cols a g r) admissionCol = some (Value.str "EMERGENCY") := by
  unfold preprocessRow
  rw [setIfMem_get_ne _ _ _ _ (by decide)]
  apply setIfMem_get_self
  rw [dictKeys_setIfMem, dictKeys_setIfMem]
  exact (buildBase_mem cols admissionCol).2 h

lemma preprocessRow_get_rural (cols : List String) (a g r : Value) (h : "RURAL" ∈ cols) :
    dictGet (preprocessRow cols a g r) "RURAL" = some r := by
  unfold preprocessRow
  rw [setIfMem_get_ne _ _ _ _ (by decide), setIfMem_get_ne _ _ _ _ (by decide)]
  apply setIfMem_get_self
  rw [dictKeys_setIfMem]
  exact (buildBase_mem cols "RURAL").2 h

lemma preprocessRow_get_gender (cols : List String) (a g r : Value) (h : "GENDER" ∈ cols) :
    dictGet (preprocessRow cols a g r) "GENDER" = some g := by
  unfold preprocessRow
  rw [setIfMem_get_ne _ _ _ _ (by decide), setIfMem_get_ne _ _ _ _ (by decide),
    setIfMem_get_ne _ _ _ _ (by decide)]
  exact setIfMem_get_self _ _ _ ((buildBase_mem cols "GENDER").2 h)

lemma preprocessRow_get_other (cols : List String) (a g r : Value) (c : String)
    (hc : c ∈ cols) (h1 : c ≠ "GENDER") (h2 : c ≠ "RURAL") (h3 : c ≠ admissionCol)
    (h4 : c ≠ "AGE") :
    dictGet (preprocessRow cols a g r) c = some (Value.num 0) := by
  unfold preprocessRow
  rw [setIfMem_get_ne _ _ _ _ h4, setIfMem_get_ne _ _ _ _ h3,
    setIfMem_get_ne _ _ _ _ h2, setIfMem_get_ne _ _ _ _ h1]
  exact buildBase_get cols c hc

lemma preprocessRow_keys_of_nodup (cols : List String) (a g r : Value)
    (h : cols.Nodup) : dictKeys (preprocessRow cols a g r) = cols := by
  unfold preprocessRow
  rw [dictKeys_setIfMem, dictKeys_setIfMem, dictKeys_setIfMem, dictKeys_setIfMem]
  exact buildBase_keys_of_nodup cols h

/-! ### `make_prediction` lemmas -/

lemma make_prediction_error_pre (pipe : Pipeline) (a g r : Value) (e : String)
    (h : preprocessE pipe a g r = Except.error e) :
    make_prediction pipe a g r = "⚠️ Error: " ++ e := by
  unfold make_prediction
  rw [h]

lemma make_prediction_of_ok (pipe : Pipeline) (a g r : Value) (df : Row)
    (h : preprocessE pipe a g r = Except.ok df) :
    make_prediction pipe a g r = predictStep pipe df := by
  unfold make_prediction
  rw [h]

lemma predictStep_error (pipe : Pipeline) (df : Row) (e : String)
    (h : pipe.predict_proba df = Except.error e) :
    predictStep pipe df = "⚠️ Error: " ++ e := by
  unfold predictStep
  rw [h]

lemma predictStep_ok (pipe : Pipeline) (df : Row) (rows : List (List ℚ))
    (h : pipe.predict_proba df = Except.ok rows) :
    predictStep pipe df = probaStep rows := by
  unfold predictStep
  rw [h]

lemma probaStep_error (rows : List (List ℚ)) (e : String)
    (h : selectProba rows = Except.error e) :
    probaStep rows = "⚠️ Error: " ++ e := by
  unfold probaStep
  rw [h]

lemma probaStep_ok (rows : List (List ℚ)) (p : ℚ)
    (h : selectProba rows = Except.ok p) :
    probaStep rows = "Predicted mortality risk: " ++ formatPercent p := by
  unfold probaStep
  rw [h]

lemma make_prediction_error_proba (pipe : Pipeline) (a g r : Value) (df : Row)
    (e : String) (h1 : preprocessE pipe a g r = Except.ok df)
    (h2 : pipe.predict_proba df = Except.error e) :
    make_prediction pipe a g r = "⚠️ Error: " ++ e := by
  rw [make_prediction_of_ok pipe a g r df h1, predictStep_error pipe df e h2]

/-! ### Claim theorems -/

/-- C1: for every input triple, the row built by `preprocess` has key set
exactly the expected columns obtained from the pipeline's fitted
preprocessing stage: every expected column is a key and no other key
appears. -/
theorem preprocess_key_set_exact (cols : List String) (age gender rural : Value)
    (c : String) :
    c ∈ dictKeys (preprocessRow cols age gender rural) ↔ c ∈ cols :=
  preprocessRow_keys_mem cols age gender rural c

/-- C2: whenever preprocessing or the probability-estimation call raises,
`make_prediction` catches the exception and returns the string
"⚠️ Error: " followed by the message; being a total function into
`String`, it never propagates the exception to the caller. -/
theorem make_prediction_catches_errors (pipe : Pipeline) (age gender rural : Value)
    (e : String)
    (h : preprocessE pipe age gender rural = Except.error e ∨
      ∃ df, preprocessE pipe age gender rural = Except.ok df ∧
        pipe.predict_proba df = Except.error e) :
    make_prediction pipe age gender rural = "⚠️ Error: " ++ e := by
  rcases h with h | ⟨df, h1, h2⟩
  · exact make_prediction_error_pre pipe age gender rural e h
  · exact make_prediction_error_proba pipe age gender rural df e h1 h2

/-- A pipeline whose probability estimation always raises. -/
def failingPipe : Pipeline :=
  ⟨Except.ok ["AGE", "GENDER", "RURAL"], fun _ => Except.error "ValueError"⟩

theorem make_prediction_catches_errors_witness :
    make_prediction failingPipe (Value.num 60) (Value.str "MALE") (Value.str "NO") =
      "⚠️ Error: " ++ "ValueError" :=
  make_prediction_catches_errors failingPipe (Value.num 60) (Value.str "MALE")
    (Value.str "NO") "ValueError"
    (Or.inr ⟨preprocessRow ["AGE", "GENDER", "RURAL"] (Value.num 60)
      (Value.str "MALE") (Value.str "NO"), rfl, rfl⟩)

/-- C3: if the admission-type column is among the expected columns, the
row built by `preprocess` maps it to the constant string "EMERGENCY",
whatever age, gender and rural are. -/
theorem preprocess_admission_always_emergency (cols : List String)
    (age gender rural : Value) (h : admissionCol ∈ cols) :
    dictGet (preprocessRow cols age gender rural) admissionCol =
      some (Value.str "EMERGENCY") :=
  preprocessRow_get_admission cols age gender rural h

theorem preprocess_admission_always_emergency_witness :
    dictGet (preprocessRow [admissionCol, "AGE"] (Value.num 5) (Value.str "FEMALE")
        (Value.str "YES")) admissionCol = some (Value.str "EMERGENCY") :=
  preprocess_admission_always_emergency [admissionCol, "AGE"] (Value.num 5)
    (Value.str "FEMALE") (Value.str "YES") (by decide)

/-- C4: every expected column other than AGE, GENDER, RURAL and the
admission-type column is mapped to 0 by the row `preprocess` builds. -/
theorem preprocess_defaults_zero (cols : List String) (age gender rural : Value)
    (c : String) (hc : c ∈ cols) (h1 : c ≠ "AGE") (h2 : c ≠ "GENDER")
    (h3 : c ≠ "RURAL") (h4 : c ≠ admissionCol) :
    dictGet (preprocessRow cols age gender rural) c = some (Value.num 0) :=
  preprocessRow_get_other cols age gender rural c hc h2 h3 h4 h1

theorem preprocess_defaults_zero_witness :
    dictGet (preprocessRow ["AGE", "HB"] (Value.num 60) (Value.str "MALE")
        (Value.str "NO")) "HB" = some (Value.num 0) :=
  preprocess_defaults_zero ["AGE", "HB"] (Value.num 60) (Value.str "MALE")
    (Value.str "NO") "HB" (by decide) (by decide) (by decide) (by decide) (by decide)

/-- C5: under the hypothesis that the pipeline returns a valid two-class
probability distribution, the value the invoker extracts is the index-1
(positive-class) entry, it lies in the interval from 0 to 1, and
`make_prediction` renders exactly that value. -/
theorem predict_proba_in_unit_interval (pipe : Pipeline) (age gender rural : Value)
    (df : Row) (p0 p1 : ℚ)
    (hpre : preprocessE pipe age gender rural = Except.ok df)
    (hp : pipe.predict_proba df = Except.ok [[p0, p1]])
    (h0 : 0 ≤ p0) (h1 : 0 ≤ p1) (hsum : p0 + p1 = 1) :
    0 ≤ p1 ∧ p1 ≤ 1 ∧ selectProba [[p0, p1]] = Except.ok p1 ∧
      make_prediction pipe age gender rural =
        "Predicted mortality risk: " ++ formatPercent p1 := by
  refine ⟨h1, by linarith, rfl, ?_⟩
  rw [make_prediction_of_ok pipe age gender rural df hpre,
    predictStep_ok pipe df [[p0, p1]] hp]
  exact probaStep_ok [[p0, p1]] p1 rfl

/-- A pipeline whose probability estimation always returns the
distribution (1/4, 3/4). -/
def okPipe : Pipeline :=
  ⟨Except.ok ["AGE", "GENDER", "RURAL"], fun _ => Except.ok [[(1 : ℚ)/4, 3/4]]⟩

theorem predict_proba_in_unit_interval_witness :
    (0 : ℚ) ≤ 3/4 ∧ (3 : ℚ)/4 ≤ 1 ∧
      selectProba [[(1 : ℚ)/4, 3/4]] = Except.ok (3/4) ∧
      make_prediction okPipe (Value.num 60) (Value.str "MALE") (Value.str "NO") =
        "Predicted mortality risk: " ++ formatPercent (3/4) :=
  predict_proba_in_unit_interval okPipe (Value.num 60) (Value.str "MALE")
    (Value.str "NO")
    (preprocessRow ["AGE", "GENDER", "RURAL"] (Value.num 60) (Value.str "MALE")
      (Value.str "NO"))
    ((1 : ℚ)/4) (3/4) rfl rfl (by norm_num) (by norm_num) (by norm_num)

/-- C6: for the input age=60, gender=MALE, rural=NO, the row built by
`preprocess` has AGE=60, GENDER="MALE", RURAL="NO" and the admission-type
column "EMERGENCY" whenever each of these columns is among the expected
columns, and every other expected column is 0. -/
theorem preprocess_scenario_default_inputs (cols : List String) :
    ("AGE" ∈ cols →
      dictGet (preprocessRow cols (Value.num 60) (Value.str "MALE") (Value.str "NO"))
        "AGE" = some (Value.num 60)) ∧
    ("GENDER" ∈ cols →
      dictGet (preprocessRow cols (Value.num 60) (Value.str "MALE") (Value.str "NO"))
        "GENDER" = some (Value.str "MALE")) ∧
    ("RURAL" ∈ cols →
      dictGet (preprocessRow cols (Value.num 60) (Value.str "MALE") (Value.str "NO"))
        "RURAL" = some (Value.str "NO")) ∧
    (admissionCol ∈ cols →
      dictGet (preprocessRow cols (Value.num 60) (Value.str "MALE") (Value.str "NO"))
        admissionCol = some (Value.str "EMERGENCY")) ∧
    (∀ c ∈ cols, c ≠ "AGE" → c ≠ "GENDER" → c ≠ "RURAL" → c ≠ admissionCol →
      dictGet (preprocessRow cols (Value.num 60) (Value.str "MALE") (Value.str "NO"))
        c = some (Value.num 0)) :=
  ⟨fun h => preprocessRow_get_age cols _ _ _ h,
   fun h => preprocessRow_get_gender cols _ _ _ h,
   fun h => preprocessRow_get_rural cols _ _ _ h,
   fun h => preprocessRow_get_admission cols _ _ _ h,
   fun c hc h1 h2 h3 h4 => preprocessRow_get_other cols _ _ _ c hc h2 h3 h4 h1⟩

/-- A plausible fitted column list used to exercise the scenario. -/
def scenarioCols : List String :=
  ["AGE", "GENDER", "RURAL", admissionCol, "HB", "UREA"]

theorem preprocess_scenario_default_inputs_witness :
    dictGet (preprocessRow scenarioCols (Value.num 60) (Value.str "MALE")
        (Value.str "NO")) "AGE" = some (Value.num 60) ∧
    dictGet (preprocessRow scenarioCols (Value.num 60) (Value.str "MALE")
        (Value.str "NO")) "GENDER" = some (Value.str "MALE") ∧
    dictGet (preprocessRow scenarioCols (Value.num 60) (Value.str "MALE")
        (Value.str "NO")) "RURAL" = some (Value.str "NO") ∧
    dictGet (preprocessRow scenarioCols (Value.num 60) (Value.str "MALE")
        (Value.str "NO")) admissionCol = some (Value.str "EMERGENCY") ∧
    dictGet (preprocessRow scenarioCols (Value.num 60) (Value.str "MALE")
        (Value.str "NO")) "HB" = some (Value.num 0) :=
  ⟨(preprocess_scenario_default_inputs scenarioCols).1 (by decide),
   (preprocess_scenario_default_inputs scenarioCols).2.1 (by decide),
   (preprocess_scenario_default_inputs scenarioCols).2.2.1 (by decide),
   (preprocess_scenario_default_inputs scenarioCols).2.2.2.1 (by decide),
   (preprocess_scenario_default_inputs scenarioCols).2.2.2.2 "HB" (by decide)
     (by decide) (by decide) (by decide) (by decide)⟩

/-- C7: every output of `make_prediction` has one of exactly two shapes:
the success message rendering a probability as a percentage with two
decimals, or the warning string "⚠️ Error: " followed by a message. -/
theorem make_prediction_output_shapes (pipe : Pipeline) (age gender rural : Value) :
    (∃ p : ℚ, make_prediction pipe age gender rural =
      "Predicted mortality risk: " ++ formatPercent p) ∨
    (∃ m : String, make_prediction pipe age gender rural = "⚠️ Error: " ++ m) := by
  cases hpre : preprocessE pipe age gender rural with
  | error e => exact Or.inr ⟨e, make_prediction_error_pre pipe age gender rural e hpre⟩
  | ok df =>
    rw [make_prediction_of_ok pipe age gender rural df hpre]
    cases hp : pipe.predict_proba df with
    | error e => exact Or.inr ⟨e, predictStep_error pipe df e hp⟩
    | ok rows =>
      rw [predictStep_ok pipe df rows hp]
      cases hs : selectProba rows with
      | error e => exact Or.inr ⟨e, probaStep_error rows e hs⟩
      | ok p => exact Or.inl ⟨p, probaStep_ok rows p hs⟩

/-- C8: the computation is stateless and deterministic: running any
sequence of requests leaves the server state unchanged, and each output
is a function of the loaded pipeline and the request alone — so two
invocations with the same inputs yield the same string. -/
theorem prediction_stateless (s : ServerState) (reqs : List Request) :
    (runAll s reqs).2 = s ∧
      (runAll s reqs).1 =
        reqs.map (fun r => make_prediction s.model r.age r.gender r.rural) := by
  induction reqs with
  | nil => exact ⟨rfl, rfl⟩
  | cons r rest ih =>
    refine ⟨?_, ?_⟩ <;> simp [runAll, handleRequest, ih.1, ih.2]

/-- C9: `preprocess` validates nothing: any age value — out of the 0-120
widget range, or Python None — is placed unchanged in the AGE column and
the builder always succeeds; the 0-120 bound lives only on the UI
widget. -/
theorem preprocess_no_age_validation (cols : List String) (age gender rural : Value)
    (h : "AGE" ∈ cols) :
    dictGet (preprocessRow cols age gender rural) "AGE" = some age :=
  preprocessRow_get_age cols age gender rural h

theorem preprocess_no_age_validation_witness :
    dictGet (preprocessRow ["AGE"] (Value.num 999) (Value.str "MALE") (Value.str "NO"))
        "AGE" = some (Value.num 999) ∧
      dictGet (preprocessRow ["AGE"] Value.none (Value.str "MALE") (Value.str "NO"))
        "AGE" = some Value.none :=
  ⟨preprocess_no_age_validation ["AGE"] (Value.num 999) (Value.str "MALE")
      (Value.str "NO") (by decide),
   preprocess_no_age_validation ["AGE"] Value.none (Value.str "MALE")
      (Value.str "NO") (by decide)⟩

/-- C10: when the fitted feature-name list has no duplicates (as a fitted
scikit-learn feature list does), the columns of the row built by
`preprocess` appear in exactly the fit order. -/
theorem preprocess_preserves_fit_order (cols : List String) (age gender rural : Value)
    (h : cols.Nodup) :
    dictKeys (preprocessRow cols age gender rural) = cols :=
  preprocessRow_keys_of_nodup cols age gender rural h

theorem preprocess_preserves_fit_order_witness :
    dictKeys (preprocessRow ["AGE", "GENDER", "RURAL", admissionCol, "HB"]
        (Value.num 60) (Value.str "MALE") (Value.str "NO")) =
      ["AGE", "GENDER", "RURAL", admissionCol, "HB"] :=
  preprocess_preserves_fit_order ["AGE", "GENDER", "RURAL", admissionCol, "HB"]
    (Value.num 60) (Value.str "MALE") (Value.str "NO") (by decide)

end Mortality
